import Mathlib

/-!
Verification development for the filepi-rs file server.

The Rust sources are shallowly embedded: absolute filesystem paths become
lists of components (`Path`), the filesystem becomes an explicit record of
existing directories and files (`FS`), handlers become pure functions from
an `FS` and their request parameters to a new `FS` paired with a result,
and the comparator/pagination pipeline of `result_handler.rs` becomes a
pure function over lists.  Machine I/O (tokio, axum extraction, streaming
bodies) is abstracted away; the decision logic of each handler is kept
step for step.  The model filesystem has no symlinks, so OS-level path
resolution of `.` and `..` is the purely lexical `resolveDots`.
-/

/-- A filesystem path, as the list of its components below the filesystem
root.  `[]` is the filesystem root `/`.  `PathBuf::join` is list append,
and components `"."`/`".."` are kept literally, exactly as `PathBuf` keeps
them until the OS resolves the path. -/
abbrev FPath := List String

/-- OS-level resolution of `.` and `..` in an absolute path (no symlinks in
the model): `.` is dropped, `..` removes the preceding component, and `..`
at the filesystem root stays at the root, as on Linux. -/
def resolveDots (p : FPath) : FPath :=
  p.foldl (fun acc c => if c = "." then acc else if c = ".." then acc.dropLast else acc ++ [c]) []

/-- All ancestors of a path (including the filesystem root and the path
itself), used to model `fs::create_dir_all` creating every missing level. -/
def ancestorsOf (p : FPath) : List FPath :=
  (List.range (p.length + 1)).map (fun i => p.take i)

/-- The model filesystem: the set of existing directories and the existing
files with their byte contents.  All recorded paths are normalized. -/
structure FS where
  dirs : List FPath
  files : List (FPath × List Nat)
deriving Repr, DecidableEq

def FS.isDir (fs : FS) (p : FPath) : Bool := fs.dirs.contains p

def FS.getFile (fs : FS) (p : FPath) : Option (List Nat) :=
  (fs.files.find? (fun e => e.1 == p)).map (fun e => e.2)

def FS.isFile (fs : FS) (p : FPath) : Bool := (fs.getFile p).isSome

/-- `Path::exists()` on the model filesystem (the OS resolves `.`/`..`
before the lookup, so callers pass a normalized path). -/
def FS.existsPath (fs : FS) (p : FPath) : Bool := fs.isDir p || fs.isFile p

/-- `std::fs::canonicalize`: resolve `.`/`..` and require the target to
exist; fails (returns `none`) on a nonexistent path. -/
def FS.canonicalize (fs : FS) (p : FPath) : Option FPath :=
  let n := resolveDots p
  if fs.existsPath n then some n else none

/-- `fs::create_dir_all` at an (OS-resolved) path: every missing ancestor
directory is created. -/
def FS.createDirAll (fs : FS) (p : FPath) : FS :=
  { fs with dirs := fs.dirs ++ (ancestorsOf p).filter (fun q => !(fs.dirs.contains q)) }

/-- `File::create` + `write_all`: create or fully replace the file at `p`. -/
def FS.writeFile (fs : FS) (p : FPath) (contents : List Nat) : FS :=
  { fs with files := (p, contents) :: fs.files.filter (fun e => !(e.1 == p)) }

/-- `fs::remove_file`. -/
def FS.removeFile (fs : FS) (p : FPath) : FS :=
  { fs with files := fs.files.filter (fun e => !(e.1 == p)) }

/-- `fs::remove_dir_all`: removes the directory and everything below it. -/
def FS.removeDirAll (fs : FS) (p : FPath) : FS :=
  { dirs := fs.dirs.filter (fun d => !(p.isPrefixOf d)),
    files := fs.files.filter (fun e => !(p.isPrefixOf e.1)) }

/-- `fs::rename`: every path at or below `old` moves below `new` (a single
file moves itself; a directory moves its whole subtree). -/
def FS.rename (fs : FS) (old new : FPath) : FS :=
  { dirs := fs.dirs.map (fun d => if old.isPrefixOf d then new ++ d.drop old.length else d),
    files := fs.files.map (fun e =>
      if old.isPrefixOf e.1 then (new ++ e.1.drop old.length, e.2) else e) }

/-- `Path::parent`: `None` for the filesystem root, otherwise the path
without its last component (the last component is dropped literally, even
when it is `..`, exactly as in `std::path`). -/
def pathParent (p : FPath) : Option FPath :=
  if p = [] then none else some p.dropLast

/-- `Path::strip_prefix(root).unwrap_or(path)` as used by `upload_file` to
report a root-relative location. -/
def stripRoot (root p : FPath) : FPath :=
  if root.isPrefixOf p then p.drop root.length else p

/-- `str::starts_with`, evaluated on the underlying characters. -/
def strStartsWith (s pre : String) : Bool := pre.data.isPrefixOf s.data

/-- `str::to_lowercase` (character-wise lowering; identical to the Rust
behaviour on ASCII, which is all the handlers compare). -/
def lowerStr (s : String) : String := ⟨s.data.map Char.toLower⟩

/-- Substring search on component lists, structure of `str::contains`. -/
def listContainsSub [BEq α] : List α → List α → Bool
  | _, [] => true
  | [], _ :: _ => false
  | a :: as, b :: bs => ((b :: bs).isPrefixOf (a :: as)) || listContainsSub as (b :: bs)

/-- `str::contains` for substring queries. -/
def containsStr (s q : String) : Bool := listContainsSub s.data q.data

/-- `std::path::Path::extension()` of a file name: the part after the last
dot, `none` when there is no dot or the only dot is leading (`.bashrc`). -/
def extensionOf (name : String) : Option String :=
  let r := name.data.reverse
  let ext := r.takeWhile (fun c => c ≠ '.')
  match r.drop ext.length with
  | [] => none
  | ['.'] => none
  | _ => some ⟨ext.reverse⟩

/-- Models the external `mime_guess` crate's essence string for a lowercase
extension (`none` when the crate has no guess). -/
def mimeEssence (ext : String) : Option String :=
  if ext = "mp4" then some "video/mp4"
  else if ext = "mkv" then some "video/x-matroska"
  else if ext = "avi" then some "video/x-msvideo"
  else if ext = "webm" then some "video/webm"
  else if ext = "txt" then some "text/plain"
  else if ext = "jpg" then some "image/jpeg"
  else if ext = "pdf" then some "application/pdf"
  else none

/-- `mime_guess::from_path(..).first_or_octet_stream()`: the guess for the
last component's extension, with the `application/octet-stream` fallback
(also taken for directories and extension-less names — `from_path` never
looks at the filesystem). -/
def mimeFromPath (p : FPath) : String :=
  match p.getLast? with
  | none => "application/octet-stream"
  | some name =>
    match extensionOf name with
    | none => "application/octet-stream"
    | some ext => (mimeEssence (lowerStr ext)).getD "application/octet-stream"

/-- Equality of `Except` results is decidable, so concrete handler runs can
be checked by `decide`. -/
instance {ε α : Type} [DecidableEq ε] [DecidableEq α] : DecidableEq (Except ε α) :=
  fun a b =>
    match a, b with
    | .error x, .error y =>
      if h : x = y then .isTrue (by rw [h]) else .isFalse (fun hc => h (by cases hc; rfl))
    | .ok x, .ok y =>
      if h : x = y then .isTrue (by rw [h]) else .isFalse (fun hc => h (by cases hc; rfl))
    | .error _, .ok _ => .isFalse (fun hc => by cases hc)
    | .ok _, .error _ => .isFalse (fun hc => by cases hc)

/-- Rust `u64::cmp` / `u128::cmp` on the model's `Nat` values. -/
def cmpNat (a b : Nat) : Ordering :=
  if a < b then .lt else if a = b then .eq else .gt

/-- Rust `bool::cmp`: `false < true`. -/
def cmpBool : Bool → Bool → Ordering
  | false, false => .eq
  | false, true => .lt
  | true, false => .gt
  | true, true => .eq

/-- Rust `char`/byte comparison by scalar value. -/
def cmpChar (a b : Char) : Ordering := cmpNat a.toNat b.toNat

/-- Lexicographic list comparison, the shape of Rust's slice `Ord`. -/
def cmpList (c : α → α → Ordering) : List α → List α → Ordering
  | [], [] => .eq
  | [], _ :: _ => .lt
  | _ :: _, [] => .gt
  | a :: as, b :: bs => (c a b).then (cmpList c as bs)

/-- Rust `String::cmp`: lexicographic on the character sequence (for valid
UTF-8, byte order and scalar-value order coincide). -/
def cmpStr (a b : String) : Ordering := cmpList cmpChar a.data b.data

/-- Rust `Option::cmp`: `None < Some`, payloads compared pointwise. -/
def cmpOpt (c : α → α → Ordering) : Option α → Option α → Ordering
  | none, none => .eq
  | none, some _ => .lt
  | some _, none => .gt
  | some a, some b => c a b

/-- The laws of a comparator arising from a total order, enough to make the
lexicographic combinations below transitive and total. -/
structure IsLinCmp (c : α → α → Ordering) : Prop where
  symm : ∀ a b, c a b = (c b a).swap
  lt_trans : ∀ a b d, c a b = .lt → c b d = .lt → c a d = .lt
  eq_trans : ∀ a b d, c a b = .eq → c b d = .eq → c a d = .eq
  lt_of_lt_of_eq : ∀ a b d, c a b = .lt → c b d = .eq → c a d = .lt
  lt_of_eq_of_lt : ∀ a b d, c a b = .eq → c b d = .lt → c a d = .lt

/-- `cmpLe c` is the Boolean "not greater" relation a Rust `sort_by` with
comparator `c` sorts by. -/
def cmpLe (c : α → α → Ordering) (a b : α) : Bool :=
  match c a b with
  | .gt => false
  | _ => true

/-- `AppError` from `handlers/app_error.rs`: the native API's error
taxonomy (mapped by `IntoResponse` to HTTP 404 / 500 / 400). -/
inductive AppError where
  | notFound (msg : String)
  | internalError (msg : String)
  | badRequest (msg : String)
deriving Repr, DecidableEq

/-- `FileInfo` from `models/file_info.rs`.  Paths stay in the component
representation; `created_time`/`modified_time` are epoch milliseconds
(already `Option` in the source, since `metadata.created().ok()` may be
`None`). -/
structure FileInfo where
  name : String
  full_name : FPath
  size : Nat
  is_directory : Bool
  created_time : Option Nat
  modified_time : Option Nat
  file_type : String
  owner : Option String
  parent_dir : Option FPath
  rel_path : Option FPath
deriving Repr, DecidableEq

/-- `FileQuery` from `models/mod.rs` (the listing/search query string). -/
structure FileQuery where
  path : Option FPath := none
  skip : Option Nat := none
  limit : Option Nat := none
  sort_by : Option String := none
  order : Option String := none
  query : Option String := none
  skip_hidden : Bool := false
deriving Repr, DecidableEq

/-- `FilesResponse` from `models/mod.rs`. -/
structure FilesResponse where
  files : List FileInfo
  total_files : Nat
  skip : Nat
  limit : Nat
deriving Repr, DecidableEq

/-- The per-field comparator of `format_result`'s `sort_by` closure: the
`match sort_field` arms, each `if is_desc { b.f.cmp(&a.f) } else
{ a.f.cmp(&b.f) }` (the string `match` is rendered as an equality chain). -/
def fieldCmp (sort_field : String) (is_desc : Bool) (a b : FileInfo) : Ordering :=
  if sort_field = "name" then
    if is_desc then cmpStr b.name a.name else cmpStr a.name b.name
  else if sort_field = "size" then
    if is_desc then cmpNat b.size a.size else cmpNat a.size b.size
  else if sort_field = "modified_time" then
    if is_desc then cmpOpt cmpNat b.modified_time a.modified_time
    else cmpOpt cmpNat a.modified_time b.modified_time
  else if sort_field = "created_time" then
    if is_desc then cmpOpt cmpNat b.created_time a.created_time
    else cmpOpt cmpNat a.created_time b.created_time
  else if sort_field = "file_type" then
    if is_desc then cmpStr b.file_type a.file_type else cmpStr a.file_type b.file_type
  else .eq

/-- The full `sort_by` comparator of `format_result` when a sort field is
given: directories always first (`b.is_directory.cmp(&a.is_directory)`),
then the requested field. -/
def fileCmp (sort_field : String) (is_desc : Bool) (a b : FileInfo) : Ordering :=
  if a.is_directory ≠ b.is_directory then cmpBool b.is_directory a.is_directory
  else fieldCmp sort_field is_desc a b

/-- The default comparator of `format_result` (no `sort_by`): directories
first, then ascending name. -/
def defaultCmp (a b : FileInfo) : Ordering :=
  if a.is_directory ≠ b.is_directory then cmpBool b.is_directory a.is_directory
  else cmpStr a.name b.name

/-- The list of recognized sort fields (`valid_fields` in
`result_handler.rs`). -/
def valid_fields : List String :=
  ["name", "size", "modified_time", "created_time", "file_type"]

/-- The sorted sequence `format_result` builds before pagination.  Rust's
stable in-place `Vec::sort_by` with comparator `c` is modelled by the
stable `List.mergeSort` under the Boolean relation `cmpLe c`. -/
def sortedEntries (files : List FileInfo) (params : FileQuery) : List FileInfo :=
  let order := params.order.getD "asc"
  let is_desc : Bool := order = "desc"
  match params.sort_by with
  | some sort_field => files.mergeSort (cmpLe (fileCmp sort_field is_desc))
  | none => files.mergeSort (cmpLe defaultCmp)

/-- `format_result` from `handlers/result_handler.rs`: validate the sort
field, sort (directories first), then paginate with
`iter().skip(skip).take(limit)`. -/
def format_result (files : List FileInfo) (params : FileQuery) :
    Except AppError FilesResponse :=
  let skip := params.skip.getD 0
  let limit := params.limit.getD 25
  let total := files.length
  match params.sort_by with
  | some sort_field =>
    if !(valid_fields.contains sort_field) then
      .error (.badRequest ("Invalid sort field: " ++ sort_field))
    else
      .ok { files := ((sortedEntries files params).drop skip).take limit,
            total_files := total, skip := skip, limit := limit }
  | none =>
    .ok { files := ((sortedEntries files params).drop skip).take limit,
          total_files := total, skip := skip, limit := limit }

/-- `FileInfo::from_path` from `models/file_info.rs`: metadata snapshot of
an existing path.  `size` is `get_size`: the byte length for files and `0`
for directories (the recursive branch is commented out in the source).
`file_type` is always the extension guess — there is no directory special
case in the source.  The creation/modification timestamps come from OS
metadata that the model does not track, so they are embedded as `none`
(they are already `Option` in the source and no property depends on them);
`owner` is the constant `Some("user1")` of the Unix branch. -/
def FileInfo.from_path (fs : FS) (p : FPath) (current_dir : FPath) : Option FileInfo :=
  if fs.existsPath p then
    some { name := (p.getLast?).getD ""
           full_name := p
           size := match fs.getFile p with
                   | some contents => contents.length
                   | none => 0
           is_directory := fs.isDir p
           created_time := none
           modified_time := none
           file_type := mimeFromPath p
           owner := some "user1"
           parent_dir := pathParent p
           rel_path := if current_dir.isPrefixOf p then some (p.drop current_dir.length)
                       else none }
  else none

/-- Outcome of `serve_file`/`stream_file`: either an `AppError` or a `200`
response streaming the bytes of the path the OS resolved. -/
inductive ServeOutcome where
  | err : AppError → ServeOutcome
  | ok : FPath → ServeOutcome
deriving Repr, DecidableEq

/-- `serve_file` from `handlers/files.rs` (the `GET file/{path}` handler;
`stream_file` and the `get_thumbnail` handler share exactly this prologue).
The traversal guard is the source's `abs_path.starts_with(&config.root_dir)`
— a componentwise prefix test on the *unresolved* joined path.  The
`exists`/`is_dir` probes and `File::open` all go through OS resolution. -/
def serve_file (fs : FS) (root : FPath) (file_path : FPath) : ServeOutcome :=
  let abs_path := root ++ file_path
  if !(root.isPrefixOf abs_path) then .err (.badRequest "Invalid path")
  else if !(fs.existsPath (resolveDots abs_path)) then .err (.notFound "File not found")
  else if fs.isDir (resolveDots abs_path) then .err (.badRequest "Path is a directory")
  else .ok (resolveDots abs_path)

/-- `UploadResponse` from `models/mod.rs` (`location` is the root-relative
path reported back to the caller). -/
structure UploadResponse where
  message : String
  filename : String
  location : FPath
  uploaded_by : String
  sha512 : Option String
  skipped : Bool
deriving Repr, DecidableEq

/-- `upload_file` from `handlers/files.rs`, parametric in the digest
function `sha512fn` (the model of `compute_file_sha512`, which digests a
file's on-disk bytes).  The step order of the source is kept: empty-field
check, *create the upload directory if missing*, canonicalize, containment
check, deduplication against an existing destination file, write.
`location` is the upload location as path components (the empty Rust
string embeds as `[]`); the client hash arrives already trimmed and
lowercased, as in the source. -/
def upload_file (sha512fn : List Nat → String) (fs : FS) (root : FPath)
    (location : FPath) (user : String) (filename : String) (contents : List Nat)
    (client_sha512 : Option String) : FS × Except AppError UploadResponse :=
  if location.isEmpty || user = "" then
    (fs, .error (.badRequest "Missing required fields: location or user"))
  else
    let upload_dir_raw := root ++ location
    let step : FS × Option FPath :=
      if fs.existsPath (resolveDots upload_dir_raw) then
        (fs, fs.canonicalize upload_dir_raw)
      else
        let fs' := fs.createDirAll (resolveDots upload_dir_raw)
        (fs', fs'.canonicalize upload_dir_raw)
    let fs₁ := step.1
    match step.2 with
    | none => (fs₁, .error (.badRequest "Invalid upload location"))
    | some upload_dir =>
      match fs₁.canonicalize root with
      | none => (fs₁, .error (.internalError "Invalid root directory configuration"))
      | some canonical_root =>
        if !(canonical_root.isPrefixOf upload_dir) then
          (fs₁, .error (.badRequest "Invalid upload path: outside root directory"))
        else
          let file_path := upload_dir ++ [filename]
          let write_and_respond : FS × Except AppError UploadResponse :=
            let fs₂ := fs₁.writeFile file_path contents
            -- compute_file_sha512 re-reads the file just written; its
            -- on-disk bytes are `contents` (single sequential request).
            let new_file_hash := sha512fn contents
            (fs₂, .ok { message := "File uploaded successfully"
                        filename := filename
                        location := stripRoot canonical_root file_path
                        uploaded_by := user
                        sha512 := some new_file_hash
                        skipped := false })
          if fs₁.existsPath file_path then
            match client_sha512 with
            | some client_hash =>
              match fs₁.getFile file_path with
              | none =>
                -- `file_path` exists but is a directory: reading it for
                -- hashing fails with an I/O error.
                (fs₁, .error (.internalError "Failed to compute file hash"))
              | some existing =>
                let existing_hash := sha512fn existing
                if client_hash = existing_hash then
                  (fs₁, .ok { message :=
                                "File already exists with identical content, upload skipped"
                              filename := filename
                              location := stripRoot canonical_root file_path
                              uploaded_by := user
                              sha512 := some existing_hash
                              skipped := true })
                else write_and_respond
            | none => write_and_respond
          else write_and_respond

/-- `CreateFolderResponse` from `models/mod.rs`. -/
structure CreateFolderResponse where
  message : String
deriving Repr, DecidableEq

/-- `create_folder` from `handlers/files.rs`.  Note the source wraps the
empty-folder-name complaint in `AppError::NotFound`, not `BadRequest`. -/
def create_folder (fs : FS) (root : FPath) (path : FPath) (foldername : String) :
    FS × Except AppError CreateFolderResponse :=
  if foldername = "" then
    (fs, .error (.notFound "Folder name should not be empty"))
  else
    let full_path_raw := root ++ path
    if !(fs.existsPath (resolveDots full_path_raw)) then
      (fs, .error (.notFound "Path not found"))
    else
      match fs.canonicalize full_path_raw with
      | none => (fs, .error (.notFound "Path not found"))
      | some full_path =>
        match fs.canonicalize root with
        | none => (fs, .error (.internalError "Invalid root directory configuration"))
        | some canonical_root =>
          if !(canonical_root.isPrefixOf full_path) then
            (fs, .error (.badRequest "Invalid path: outside root directory"))
          else
            let dir_path := full_path ++ [foldername]
            if fs.existsPath (resolveDots dir_path) then
              (fs, .error (.badRequest "Directory already exist"))
            else
              (fs.createDirAll (resolveDots dir_path),
               .ok { message := "Folder created successfully" })

/-- The file paths `WalkDir::new(dir)` visits (directories themselves are
skipped by the `metadata.is_dir()` guard in every source walk loop). -/
def FS.filesUnder (fs : FS) (dir : FPath) : List FPath :=
  (fs.files.map (fun e => e.1)).filter (fun q => dir.isPrefixOf q)

/-- `search` from `handlers/files.rs`: reject an empty query, resolve and
contain the base path, then walk recursively keeping non-hidden files
whose lowercased name contains the lowercased query.  As in the source,
each hit is turned into a `FileInfo` against the *relative* `path`
parameter (not the absolute base). -/
def search (fs : FS) (root : FPath) (path : FPath) (params : FileQuery) :
    Except AppError FilesResponse :=
  let query := lowerStr (params.query.getD "")
  if query = "" then .error (.badRequest "Missing search query")
  else
    let full_path_raw := root ++ path
    match fs.canonicalize full_path_raw with
    | none => .error (.notFound "Path not found")
    | some full_path =>
      match fs.canonicalize root with
      | none => .error (.internalError "Invalid root directory configuration")
      | some canonical_root =>
        if !(canonical_root.isPrefixOf full_path) then
          .error (.badRequest "Invalid path: outside root directory")
        else if !(fs.existsPath full_path) then .error (.notFound "Path not found")
        else if !(fs.isDir full_path) then .error (.badRequest "Path is not a directory")
        else
          let matching_files :=
            ((fs.filesUnder full_path).filter (fun q =>
              let file_name := (q.getLast?).getD ""
              (!(params.skip_hidden && strStartsWith file_name ".")) &&
                containsStr (lowerStr file_name) query)).filterMap
              (fun q => FileInfo.from_path fs q path)
          format_result matching_files params

/-- `ThumbnailError` from `handlers/thumbnail_manager.rs`. -/
inductive ThumbnailError where
  | invalidInput
  | internalError (msg : String)
deriving Repr, DecidableEq

/-- Result of one `get_thumbnail` call: the filesystem afterwards, the
returned path or error, and whether the external `ffmpeg` process was
spawned. -/
structure ThumbOutcome where
  fs : FS
  result : Except ThumbnailError FPath
  spawned : Bool
deriving Repr

/-- `get_thumbnail` from `handlers/thumbnail_manager.rs`, parametric in the
path-string digest `digest` (the model of `get_md5_hash` applied to the
source path rendered as a string) and in the external tool's success
`ffmpeg_ok`.  Precondition checks, the `<cache_dir>/<digest>` directory,
the `thumbnail.jpg` cache probe and the spawn decision follow the source
line by line; a successful spawn deposits the produced JPEG bytes
(abstracted as `jpeg_bytes`) in the cache. -/
def get_thumbnail (digest : FPath → String) (ffmpeg_ok : Bool) (jpeg_bytes : List Nat)
    (fs : FS) (cache_dir : FPath) (path : FPath) : ThumbOutcome :=
  if !(fs.existsPath path) || fs.isDir path then
    { fs := fs, result := .error .invalidInput, spawned := false }
  else if !(strStartsWith (mimeFromPath path) "video/") then
    { fs := fs, result := .error .invalidInput, spawned := false }
  else
    let thumbnail_dir := cache_dir ++ [digest path]
    let fs₁ := if !(fs.existsPath thumbnail_dir) then fs.createDirAll thumbnail_dir else fs
    let thumbnail_path := thumbnail_dir ++ ["thumbnail.jpg"]
    if fs₁.existsPath thumbnail_path then
      { fs := fs₁, result := .ok thumbnail_path, spawned := false }
    else if ffmpeg_ok then
      { fs := fs₁.writeFile thumbnail_path jpeg_bytes,
        result := .ok thumbnail_path, spawned := true }
    else
      { fs := fs₁,
        result := .error (.internalError "Failed to generate thumbnail with FFmpeg"),
        spawned := true }

/-- `ErrorDetails` from the widget-protocol models. -/
structure ErrorDetails where
  code : Option String := none
  message : Option String := none
  file_exists : Option (List String) := none
deriving Repr, DecidableEq

/-- `FileManagerDirectoryContent`, the widget protocol's one
request-and-entry DTO.  The fields the dispatcher logic never reads or
that carry data outside the model (chrono timestamps, permission records,
the recursive `data`/`target_data` payloads, ids) are omitted; request
paths travel as components (`path_str == "/"` embeds as `[]`, matching the
source's `trim_start_matches('/')` preprocessing), and the formatted
`filter_path` strings are kept as the underlying component paths. -/
structure FileManagerDirectoryContent where
  path : Option FPath := none
  action : Option String := none
  new_name : Option String := none
  names : Option (List String) := none
  name : Option String := none
  size : Option Nat := none
  has_child : Bool := false
  is_file : Bool := false
  file_type : Option String := none
  filter_path : Option FPath := none
  search_string : Option String := none
  show_hidden_items : Bool := false
deriving Repr, DecidableEq

/-- `FileManagerResponse` from the widget-protocol models (`details` is
only populated by the unimplemented `details` action and is modelled as a
unit placeholder). -/
structure FileManagerResponse where
  cwd : Option FileManagerDirectoryContent := none
  files : Option (List FileManagerDirectoryContent) := none
  error : Option ErrorDetails := none
  details : Option Unit := none
deriving Repr, DecidableEq

/-- `create_error_response` from `syncfusion-fm-backend/src/lib.rs`. -/
def create_error_response (code message : String) : FileManagerResponse :=
  { error := some { code := some code, message := some message, file_exists := none } }

/-- `is_safe_path` from `syncfusion-fm-backend/src/lib.rs`: canonicalize
and prefix-check against the canonicalized root; for a nonexistent target
(creation case) apply the same check to the parent instead. -/
def is_safe_path (fs : FS) (path root : FPath) : Bool :=
  match fs.canonicalize path with
  | some canonical_path =>
    match fs.canonicalize root with
    | some canonical_root => canonical_root.isPrefixOf canonical_path
    | none => false
  | none =>
    match pathParent path with
    | some parent =>
      match fs.canonicalize parent with
      | some canonical_parent =>
        match fs.canonicalize root with
        | some canonical_root => canonical_root.isPrefixOf canonical_parent
        | none => false
      | none => false
    | none => false

/-- `validate_path` from `syncfusion-fm-backend/src/lib.rs`. -/
def validate_path (fs : FS) (root relative_path : FPath) : Except String FPath :=
  let full_path := root ++ relative_path
  if !(is_safe_path fs full_path root) then .error "Invalid path"
  else .ok full_path

/-- `get_file_extension` from `syncfusion-fm-backend/src/lib.rs`:
`".<ext>"` lowercased, or the literal `"file"` when there is none. -/
def get_file_extension (filename : String) : String :=
  match extensionOf filename with
  | some ext => "." ++ lowerStr ext
  | none => "file"

/-- The entries `fs::read_dir` yields for a directory of the model
filesystem: immediate children, directories then files in record order
(`read_dir` order is unspecified by the OS).  Each entry is (name, is_dir,
byte size); a directory's `metadata.len()` is modelled as 0. -/
def FS.childrenOf (fs : FS) (p : FPath) : List (String × Bool × Nat) :=
  (fs.dirs.filter (fun d => decide (d ≠ []) && (d.dropLast == p))).map
    (fun d => ((d.getLast?).getD "", true, 0)) ++
  (fs.files.filter (fun e => decide (e.1 ≠ []) && (e.1.dropLast == p))).map
    (fun e => ((e.1.getLast?).getD "", false, e.2.length))

/-- `handle_read` from `syncfusion-fm-backend/src/lib.rs`. -/
def handle_read (fs : FS) (request : FileManagerDirectoryContent) (root : FPath) :
    FS × FileManagerResponse :=
  let relative_path := request.path.getD []
  let full_path := root ++ relative_path
  if !(is_safe_path fs full_path root) then (fs, create_error_response "400" "Invalid path")
  else if !(fs.existsPath (resolveDots full_path)) then
    (fs, create_error_response "404" "Path not found")
  else if !(fs.isDir (resolveDots full_path)) then
    (fs, create_error_response "400" "Path is not a directory")
  else
    let show_hidden := request.show_hidden_items
    let files := ((fs.childrenOf (resolveDots full_path)).filter (fun c =>
        show_hidden || !(strStartsWith c.1 "."))).map (fun c =>
      { name := some c.1
        size := some c.2.2
        is_file := !c.2.1
        has_child := c.2.1
        filter_path := some relative_path
        file_type := some (if c.2.1 then "" else get_file_extension c.1)
        : FileManagerDirectoryContent })
    let cwd_name := if relative_path.isEmpty then (root.getLast?).getD ""
                    else (relative_path.getLast?).getD ""
    let cwd : FileManagerDirectoryContent :=
      { name := some cwd_name
        size := some 0
        is_file := false
        has_child := !files.isEmpty
        filter_path := some relative_path
        file_type := some "" }
    (fs, { cwd := some cwd, files := some files, error := none, details := none })

/-- `handle_create` from `syncfusion-fm-backend/src/lib.rs`: an existing
target yields the logical `file_exists` error inside a normal response. -/
def handle_create (fs : FS) (request : FileManagerDirectoryContent) (root : FPath) :
    FS × FileManagerResponse :=
  let relative_path := request.path.getD []
  match request.name with
  | none => (fs, create_error_response "400" "Folder name is required")
  | some name =>
    if name = "" then (fs, create_error_response "400" "Folder name is required")
    else
      let full_path := root ++ relative_path ++ [name]
      if !(is_safe_path fs full_path root) then
        (fs, create_error_response "400" "Invalid path")
      else if fs.existsPath (resolveDots full_path) then
        (fs, { cwd := none
               files := none
               error := some { code := some "400"
                               message := some "Folder already exists"
                               file_exists := some [name] }
               details := none })
      else
        let fs' := fs.createDirAll (resolveDots full_path)
        let new_folder : FileManagerDirectoryContent :=
          { name := some name
            size := some 0
            is_file := false
            has_child := false
            filter_path := request.path
            file_type := some "" }
        (fs', { cwd := none, files := some [new_folder], error := none, details := none })

/-- The batch loop of `handle_delete`: each name is containment-checked,
must exist, and is removed (recursively for directories); the first
failure aborts the rest of the batch, keeping the deletions already done. -/
def delete_go (root relative_path : FPath) :
    FS → List String → List FileManagerDirectoryContent → FS × FileManagerResponse
  | fs, [], deleted =>
    (fs, { cwd := none, files := some deleted, error := none, details := none })
  | fs, name :: rest, deleted =>
    let full_path := root ++ relative_path ++ [name]
    if !(is_safe_path fs full_path root) then (fs, create_error_response "400" "Invalid path")
    else if !(fs.existsPath (resolveDots full_path)) then
      (fs, create_error_response "404" "File not found")
    else
      let is_dir := fs.isDir (resolveDots full_path)
      let fs' := if is_dir then fs.removeDirAll (resolveDots full_path)
                 else fs.removeFile (resolveDots full_path)
      let entry : FileManagerDirectoryContent :=
        { name := some name
          size := some 0
          is_file := !is_dir
          has_child := false
          filter_path := none
          file_type := some (if is_dir then "" else get_file_extension name) }
      delete_go root relative_path fs' rest (deleted ++ [entry])

/-- `handle_delete` from `syncfusion-fm-backend/src/lib.rs`. -/
def handle_delete (fs : FS) (request : FileManagerDirectoryContent) (root : FPath) :
    FS × FileManagerResponse :=
  let relative_path := request.path.getD []
  match request.names with
  | none => (fs, create_error_response "400" "File names are required")
  | some names =>
    if names.isEmpty then (fs, create_error_response "400" "File names are required")
    else delete_go root relative_path fs names []

/-- `handle_rename` from `syncfusion-fm-backend/src/lib.rs`. -/
def handle_rename (fs : FS) (request : FileManagerDirectoryContent) (root : FPath) :
    FS × FileManagerResponse :=
  let relative_path := request.path.getD []
  match request.name with
  | none => (fs, create_error_response "400" "File name is required")
  | some name =>
    if name = "" then (fs, create_error_response "400" "File name is required")
    else
      match request.new_name with
      | none => (fs, create_error_response "400" "New name is required")
      | some new_name =>
        if new_name = "" then (fs, create_error_response "400" "New name is required")
        else
          let old_path := root ++ relative_path ++ [name]
          let new_path := root ++ relative_path ++ [new_name]
          if !(is_safe_path fs old_path root) || !(is_safe_path fs new_path root) then
            (fs, create_error_response "400" "Invalid path")
          else if !(fs.existsPath (resolveDots old_path)) then
            (fs, create_error_response "404" "File not found")
          else if fs.existsPath (resolveDots new_path) then
            (fs, { cwd := none
                   files := none
                   error := some { code := some "400"
                                   message := some "File already exists"
                                   file_exists := some [new_name] }
                   details := none })
          else
            let fs' := fs.rename (resolveDots old_path) (resolveDots new_path)
            let is_dir := fs'.isDir (resolveDots new_path)
            let renamed : FileManagerDirectoryContent :=
              { name := some new_name
                size := some ((fs'.getFile (resolveDots new_path)).getD []).length
                is_file := !is_dir
                has_child := is_dir
                filter_path := request.path
                file_type := some (if is_dir then "" else get_file_extension new_name) }
            (fs', { cwd := none, files := some [renamed], error := none, details := none })

/-- The placeholder response of the reserved `search`/`copy`/`move`/
`details` actions: well-formed, empty, no error. -/
def placeholder_response : FileManagerResponse :=
  { cwd := none, files := some [], error := none, details := none }

/-- `process_file_manager_request` from `syncfusion-fm-backend/src/lib.rs`:
the action-keyed dispatcher. -/
def process_file_manager_request (fs : FS) (request : FileManagerDirectoryContent)
    (root : FPath) : FS × FileManagerResponse :=
  let action := request.action.getD ""
  if action = "read" then handle_read fs request root
  else if action = "create" then handle_create fs request root
  else if action = "delete" then handle_delete fs request root
  else if action = "rename" then handle_rename fs request root
  else if action = "search" then (fs, placeholder_response)
  else if action = "copy" then (fs, placeholder_response)
  else if action = "move" then (fs, placeholder_response)
  else if action = "details" then (fs, placeholder_response)
  else (fs, create_error_response "400" ("Unknown action: " ++ action))

/-- `file_operations` from `handlers/syncfusion.rs`: the transport wrapper
of the dispatcher.  Whatever response the dispatcher builds — including
`error`-carrying ones — is returned as `Ok(Json(response))`; the
`Result`'s error side (an HTTP error status) is never produced. -/
def file_operations (fs : FS) (root : FPath) (args : FileManagerDirectoryContent) :
    Except AppError (FS × FileManagerResponse) :=
  .ok (process_file_manager_request fs args root)

/-- A concrete file entry for witnesses. -/
def sampleFile : FileInfo :=
  { name := "a.txt", full_name := ["data", "a.txt"], size := 3, is_directory := false,
    created_time := none, modified_time := none, file_type := "text/plain",
    owner := some "user1", parent_dir := some ["data"], rel_path := some ["a.txt"] }

/-- Helper: does a handler result carry a `BadRequest`? -/
def resultIsBadRequest {α : Type} : Except AppError α → Bool
  | .error (.badRequest _) => true
  | _ => false

theorem cmpNat_eq_lt {a b : Nat} : cmpNat a b = .lt ↔ a < b := by
  unfold cmpNat; split_ifs with h1 h2 <;> simp_all <;> omega

theorem cmpNat_eq_eq {a b : Nat} : cmpNat a b = .eq ↔ a = b := by
  unfold cmpNat; split_ifs with h1 h2 <;> simp_all <;> omega

theorem cmpNat_eq_gt {a b : Nat} : cmpNat a b = .gt ↔ b < a := by
  unfold cmpNat; split_ifs with h1 h2 <;> simp_all <;> omega

theorem isLinCmp_cmpNat : IsLinCmp cmpNat where
  symm a b := by
    rcases Nat.lt_trichotomy a b with h | h | h
    · rw [cmpNat_eq_lt.mpr h, cmpNat_eq_gt.mpr h]; rfl
    · rw [cmpNat_eq_eq.mpr h, cmpNat_eq_eq.mpr h.symm]; rfl
    · rw [cmpNat_eq_gt.mpr h, cmpNat_eq_lt.mpr h]; rfl
  lt_trans a b d h1 h2 := cmpNat_eq_lt.mpr (Nat.lt_trans (cmpNat_eq_lt.mp h1) (cmpNat_eq_lt.mp h2))
  eq_trans a b d h1 h2 := cmpNat_eq_eq.mpr ((cmpNat_eq_eq.mp h1).trans (cmpNat_eq_eq.mp h2))
  lt_of_lt_of_eq a b d h1 h2 := cmpNat_eq_lt.mpr (cmpNat_eq_eq.mp h2 ▸ cmpNat_eq_lt.mp h1)
  lt_of_eq_of_lt a b d h1 h2 := cmpNat_eq_lt.mpr (cmpNat_eq_eq.mp h1 ▸ cmpNat_eq_lt.mp h2)

theorem isLinCmp_comap (f : β → α) {c : α → α → Ordering} (h : IsLinCmp c) :
    IsLinCmp (fun a b => c (f a) (f b)) where
  symm a b := h.symm (f a) (f b)
  lt_trans a b d := h.lt_trans (f a) (f b) (f d)
  eq_trans a b d := h.eq_trans (f a) (f b) (f d)
  lt_of_lt_of_eq a b d := h.lt_of_lt_of_eq (f a) (f b) (f d)
  lt_of_eq_of_lt a b d := h.lt_of_eq_of_lt (f a) (f b) (f d)

theorem isLinCmp_cmpChar : IsLinCmp cmpChar := isLinCmp_comap Char.toNat isLinCmp_cmpNat

theorem ordering_then_swap (o₁ o₂ : Ordering) : (o₁.then o₂).swap = o₁.swap.then o₂.swap := by
  cases o₁ <;> rfl

theorem ordering_then_eq_lt {o₁ o₂ : Ordering} :
    o₁.then o₂ = .lt ↔ o₁ = .lt ∨ (o₁ = .eq ∧ o₂ = .lt) := by
  cases o₁ <;> simp [Ordering.then]

theorem ordering_then_eq_eq {o₁ o₂ : Ordering} :
    o₁.then o₂ = .eq ↔ o₁ = .eq ∧ o₂ = .eq := by
  cases o₁ <;> simp [Ordering.then]

theorem cmpList_cons_lt {c : α → α → Ordering} {a b : α} {as bs : List α} :
    cmpList c (a :: as) (b :: bs) = .lt ↔
      c a b = .lt ∨ (c a b = .eq ∧ cmpList c as bs = .lt) :=
  ordering_then_eq_lt

theorem cmpList_cons_eq {c : α → α → Ordering} {a b : α} {as bs : List α} :
    cmpList c (a :: as) (b :: bs) = .eq ↔ c a b = .eq ∧ cmpList c as bs = .eq :=
  ordering_then_eq_eq

theorem cmpList_symm {c : α → α → Ordering} (h : IsLinCmp c) :
    ∀ a b, cmpList c a b = (cmpList c b a).swap
  | [], [] => rfl
  | [], _ :: _ => rfl
  | _ :: _, [] => rfl
  | a :: as, b :: bs => by
    show (c a b).then (cmpList c as bs) = ((c b a).then (cmpList c bs as)).swap
    rw [ordering_then_swap, ← h.symm a b, ← cmpList_symm h as bs]

theorem cmpList_lt_trans {c : α → α → Ordering} (h : IsLinCmp c) :
    ∀ a b d, cmpList c a b = .lt → cmpList c b d = .lt → cmpList c a d = .lt
  | [], b, d => fun h1 h2 => by
    cases b with
    | nil => simp [cmpList] at h1
    | cons y ys =>
      cases d with
      | nil => simp [cmpList] at h2
      | cons z zs => rfl
  | _ :: _, [], _ => fun h1 _ => by simp [cmpList] at h1
  | a :: as, y :: ys, d => fun h1 h2 => by
    cases d with
    | nil => simp [cmpList] at h2
    | cons z zs =>
      rw [cmpList_cons_lt] at h1 h2 ⊢
      rcases h1 with h1 | ⟨h1e, h1t⟩ <;> rcases h2 with h2 | ⟨h2e, h2t⟩
      · exact Or.inl (h.lt_trans a y z h1 h2)
      · exact Or.inl (h.lt_of_lt_of_eq a y z h1 h2e)
      · exact Or.inl (h.lt_of_eq_of_lt a y z h1e h2)
      · exact Or.inr ⟨h.eq_trans a y z h1e h2e, cmpList_lt_trans h as ys zs h1t h2t⟩

theorem cmpList_eq_trans {c : α → α → Ordering} (h : IsLinCmp c) :
    ∀ a b d, cmpList c a b = .eq → cmpList c b d = .eq → cmpList c a d = .eq
  | [], b, d => fun h1 h2 => by
    cases b with
    | nil => exact h2
    | cons y ys => simp [cmpList] at h1
  | _ :: _, [], _ => fun h1 _ => by simp [cmpList] at h1
  | a :: as, y :: ys, d => fun h1 h2 => by
    cases d with
    | nil => simp [cmpList] at h2
    | cons z zs =>
      rw [cmpList_cons_eq] at h1 h2 ⊢
      exact ⟨h.eq_trans a y z h1.1 h2.1, cmpList_eq_trans h as ys zs h1.2 h2.2⟩

theorem cmpList_lt_of_lt_of_eq {c : α → α → Ordering} (h : IsLinCmp c) :
    ∀ a b d, cmpList c a b = .lt → cmpList c b d = .eq → cmpList c a d = .lt
  | [], b, d => fun h1 h2 => by
    cases b with
    | nil => simp [cmpList] at h1
    | cons y ys =>
      cases d with
      | nil => simp [cmpList] at h2
      | cons z zs => rfl
  | _ :: _, [], _ => fun h1 _ => by simp [cmpList] at h1
  | a :: as, y :: ys, d => fun h1 h2 => by
    cases d with
    | nil => simp [cmpList] at h2
    | cons z zs =>
      rw [cmpList_cons_lt] at h1 ⊢
      rw [cmpList_cons_eq] at h2
      rcases h1 with h1 | ⟨h1e, h1t⟩
      · exact Or.inl (h.lt_of_lt_of_eq a y z h1 h2.1)
      · exact Or.inr ⟨h.eq_trans a y z h1e h2.1, cmpList_lt_of_lt_of_eq h as ys zs h1t h2.2⟩

theorem cmpList_lt_of_eq_of_lt {c : α → α → Ordering} (h : IsLinCmp c) :
    ∀ a b d, cmpList c a b = .eq → cmpList c b d = .lt → cmpList c a d = .lt
  | [], b, d => fun h1 h2 => by
    cases b with
    | nil => exact h2
    | cons y ys => simp [cmpList] at h1
  | _ :: _, [], _ => fun h1 _ => by simp [cmpList] at h1
  | a :: as, y :: ys, d => fun h1 h2 => by
    cases d with
    | nil => simp [cmpList] at h2
    | cons z zs =>
      rw [cmpList_cons_eq] at h1
      rw [cmpList_cons_lt] at h2 ⊢
      rcases h2 with h2 | ⟨h2e, h2t⟩
      · exact Or.inl (h.lt_of_eq_of_lt a y z h1.1 h2)
      · exact Or.inr ⟨h.eq_trans a y z h1.1 h2e, cmpList_lt_of_eq_of_lt h as ys zs h1.2 h2t⟩

theorem isLinCmp_cmpList {c : α → α → Ordering} (h : IsLinCmp c) : IsLinCmp (cmpList c) where
  symm := cmpList_symm h
  lt_trans := cmpList_lt_trans h
  eq_trans := cmpList_eq_trans h
  lt_of_lt_of_eq := cmpList_lt_of_lt_of_eq h
  lt_of_eq_of_lt := cmpList_lt_of_eq_of_lt h

theorem isLinCmp_cmpStr : IsLinCmp cmpStr :=
  isLinCmp_comap String.data (isLinCmp_cmpList isLinCmp_cmpChar)

theorem isLinCmp_cmpOpt {c : α → α → Ordering} (h : IsLinCmp c) : IsLinCmp (cmpOpt c) where
  symm a b := by cases a <;> cases b <;> first | rfl | exact h.symm _ _
  lt_trans a b d h1 h2 := by
    cases a <;> cases b <;> cases d <;> simp_all [cmpOpt]
    exact h.lt_trans _ _ _ h1 h2
  eq_trans a b d h1 h2 := by
    cases a <;> cases b <;> cases d <;> simp_all [cmpOpt]
    exact h.eq_trans _ _ _ h1 h2
  lt_of_lt_of_eq a b d h1 h2 := by
    cases a <;> cases b <;> cases d <;> simp_all [cmpOpt]
    exact h.lt_of_lt_of_eq _ _ _ h1 h2
  lt_of_eq_of_lt a b d h1 h2 := by
    cases a <;> cases b <;> cases d <;> simp_all [cmpOpt]
    exact h.lt_of_eq_of_lt _ _ _ h1 h2

theorem isLinCmp_cmpBool : IsLinCmp cmpBool where
  symm a b := by cases a <;> cases b <;> rfl
  lt_trans a b d := by cases a <;> cases b <;> cases d <;> simp [cmpBool]
  eq_trans a b d := by cases a <;> cases b <;> cases d <;> simp [cmpBool]
  lt_of_lt_of_eq a b d := by cases a <;> cases b <;> cases d <;> simp [cmpBool]
  lt_of_eq_of_lt a b d := by cases a <;> cases b <;> cases d <;> simp [cmpBool]

/-- Reverse a comparator's argument order (the `b.cmp(&a)` pattern used for
descending sorts). -/
theorem isLinCmp_flip {c : α → α → Ordering} (h : IsLinCmp c) :
    IsLinCmp (fun a b => c b a) where
  symm a b := h.symm b a
  lt_trans a b d h1 h2 := h.lt_trans d b a h2 h1
  eq_trans a b d h1 h2 := h.eq_trans d b a h2 h1
  lt_of_lt_of_eq a b d h1 h2 := h.lt_of_eq_of_lt d b a h2 h1
  lt_of_eq_of_lt a b d h1 h2 := h.lt_of_lt_of_eq d b a h2 h1

/-- The lexicographic chaining `o₁.then o₂` of two lawful comparators is
lawful. -/
theorem isLinCmp_then {c₁ c₂ : α → α → Ordering} (h₁ : IsLinCmp c₁) (h₂ : IsLinCmp c₂) :
    IsLinCmp (fun a b => (c₁ a b).then (c₂ a b)) where
  symm a b := by rw [h₁.symm a b, h₂.symm a b, ordering_then_swap]
  lt_trans a b d ha hb := by
    rw [ordering_then_eq_lt] at ha hb ⊢
    rcases ha with ha | ⟨hae, hat⟩ <;> rcases hb with hb | ⟨hbe, hbt⟩
    · exact Or.inl (h₁.lt_trans a b d ha hb)
    · exact Or.inl (h₁.lt_of_lt_of_eq a b d ha hbe)
    · exact Or.inl (h₁.lt_of_eq_of_lt a b d hae hb)
    · exact Or.inr ⟨h₁.eq_trans a b d hae hbe, h₂.lt_trans a b d hat hbt⟩
  eq_trans a b d ha hb := by
    rw [ordering_then_eq_eq] at ha hb ⊢
    exact ⟨h₁.eq_trans a b d ha.1 hb.1, h₂.eq_trans a b d ha.2 hb.2⟩
  lt_of_lt_of_eq a b d ha hb := by
    rw [ordering_then_eq_lt] at ha ⊢
    rw [ordering_then_eq_eq] at hb
    rcases ha with ha | ⟨hae, hat⟩
    · exact Or.inl (h₁.lt_of_lt_of_eq a b d ha hb.1)
    · exact Or.inr ⟨h₁.eq_trans a b d hae hb.1, h₂.lt_of_lt_of_eq a b d hat hb.2⟩
  lt_of_eq_of_lt a b d ha hb := by
    rw [ordering_then_eq_eq] at ha
    rw [ordering_then_eq_lt] at hb ⊢
    rcases hb with hb | ⟨hbe, hbt⟩
    · exact Or.inl (h₁.lt_of_eq_of_lt a b d ha.1 hb)
    · exact Or.inr ⟨h₁.eq_trans a b d ha.1 hbe, h₂.lt_of_eq_of_lt a b d ha.2 hbt⟩

/-- The constant `Ordering.eq` comparator (the `_ => Ordering::Equal` arm). -/
theorem isLinCmp_const_eq : IsLinCmp (fun (_ _ : α) => Ordering.eq) where
  symm _ _ := rfl
  lt_trans _ _ _ h1 _ := by cases h1
  eq_trans _ _ _ _ _ := rfl
  lt_of_lt_of_eq _ _ _ h1 _ := by cases h1
  lt_of_eq_of_lt _ _ _ _ h2 := by cases h2

theorem cmpLe_eq_true {c : α → α → Ordering} {a b : α} :
    cmpLe c a b = true ↔ c a b ≠ .gt := by
  unfold cmpLe; rcases c a b with _ | _ | _ <;> simp

theorem IsLinCmp.le_trans {c : α → α → Ordering} (h : IsLinCmp c) (a b d : α)
    (h1 : cmpLe c a b = true) (h2 : cmpLe c b d = true) : cmpLe c a d = true := by
  rw [cmpLe_eq_true] at h1 h2 ⊢
  rcases hab : c a b with _ | _ | _
  · rcases hbd : c b d with _ | _ | _
    · simp [h.lt_trans a b d hab hbd]
    · simp [h.lt_of_lt_of_eq a b d hab hbd]
    · exact absurd hbd h2
  · rcases hbd : c b d with _ | _ | _
    · simp [h.lt_of_eq_of_lt a b d hab hbd]
    · simp [h.eq_trans a b d hab hbd]
    · exact absurd hbd h2
  · exact absurd hab h1

theorem IsLinCmp.le_total {c : α → α → Ordering} (h : IsLinCmp c) (a b : α) :
    (cmpLe c a b || cmpLe c b a) = true := by
  have hs := h.symm a b
  unfold cmpLe
  rcases hab : c a b with _ | _ | _ <;> rw [hab] at hs <;>
    rcases hba : c b a with _ | _ | _ <;> simp_all [Ordering.swap]

theorem isLinCmp_ite (P : Prop) [Decidable P] {c₁ c₂ : α → α → Ordering}
    (h₁ : IsLinCmp c₁) (h₂ : IsLinCmp c₂) :
    IsLinCmp (fun a b => if P then c₁ a b else c₂ a b) := by
  by_cases hP : P
  · simp only [if_pos hP]; exact h₁
  · simp only [if_neg hP]; exact h₂

theorem isLinCmp_fieldCmp (sort_field : String) (is_desc : Bool) :
    IsLinCmp (fieldCmp sort_field is_desc) := by
  unfold fieldCmp
  exact isLinCmp_ite _
    (isLinCmp_ite _
      (isLinCmp_flip (isLinCmp_comap (fun fi => fi.name) isLinCmp_cmpStr))
      (isLinCmp_comap (fun fi => fi.name) isLinCmp_cmpStr))
    (isLinCmp_ite _
      (isLinCmp_ite _
        (isLinCmp_flip (isLinCmp_comap (fun fi => fi.size) isLinCmp_cmpNat))
        (isLinCmp_comap (fun fi => fi.size) isLinCmp_cmpNat))
      (isLinCmp_ite _
        (isLinCmp_ite _
          (isLinCmp_flip (isLinCmp_comap (fun fi => fi.modified_time)
            (isLinCmp_cmpOpt isLinCmp_cmpNat)))
          (isLinCmp_comap (fun fi => fi.modified_time) (isLinCmp_cmpOpt isLinCmp_cmpNat)))
        (isLinCmp_ite _
          (isLinCmp_ite _
            (isLinCmp_flip (isLinCmp_comap (fun fi => fi.created_time)
              (isLinCmp_cmpOpt isLinCmp_cmpNat)))
            (isLinCmp_comap (fun fi => fi.created_time) (isLinCmp_cmpOpt isLinCmp_cmpNat)))
          (isLinCmp_ite _
            (isLinCmp_ite _
              (isLinCmp_flip (isLinCmp_comap (fun fi => fi.file_type) isLinCmp_cmpStr))
              (isLinCmp_comap (fun fi => fi.file_type) isLinCmp_cmpStr))
            isLinCmp_const_eq))))

theorem isLinCmp_fileCmp (sort_field : String) (is_desc : Bool) :
    IsLinCmp (fileCmp sort_field is_desc) := by
  have heq : fileCmp sort_field is_desc = fun a b =>
      (cmpBool b.is_directory a.is_directory).then (fieldCmp sort_field is_desc a b) := by
    funext a b
    unfold fileCmp
    cases ha : a.is_directory <;> cases hb : b.is_directory <;>
      simp [ha, hb, cmpBool, Ordering.then]
  rw [heq]
  exact isLinCmp_then
    (isLinCmp_flip (isLinCmp_comap (fun fi => fi.is_directory) isLinCmp_cmpBool))
    (isLinCmp_fieldCmp sort_field is_desc)

theorem isLinCmp_defaultCmp : IsLinCmp defaultCmp := by
  have heq : defaultCmp = fun a b =>
      (cmpBool b.is_directory a.is_directory).then (cmpStr a.name b.name) := by
    funext a b
    unfold defaultCmp
    cases ha : a.is_directory <;> cases hb : b.is_directory <;>
      simp [ha, hb, cmpBool, Ordering.then]
  rw [heq]
  exact isLinCmp_then
    (isLinCmp_flip (isLinCmp_comap (fun fi => fi.is_directory) isLinCmp_cmpBool))
    (isLinCmp_comap (fun fi => fi.name) isLinCmp_cmpStr)

/-- A file (non-directory) never compares `≤` a directory under either
`format_result` comparator shape. -/
theorem cmpLe_dir_false {c : FileInfo → FileInfo → Ordering}
    (hc : ∀ a b, a.is_directory ≠ b.is_directory →
      c a b = cmpBool b.is_directory a.is_directory)
    {a b : FileInfo} (ha : a.is_directory = false) (hb : b.is_directory = true) :
    cmpLe c a b = false := by
  have : c a b = .gt := by
    rw [hc a b (by rw [ha, hb]; simp), ha, hb]
    rfl
  unfold cmpLe
  rw [this]

theorem isPrefixOf_append_self (root rel : FPath) : root.isPrefixOf (root ++ rel) = true := by
  induction root with
  | nil => simp [List.isPrefixOf]
  | cons a as ih => simp [List.isPrefixOf, ih]

theorem mem_ancestorsOf_length {p q : FPath} (h : q ∈ ancestorsOf p) : q.length ≤ p.length := by
  unfold ancestorsOf at h
  simp only [List.mem_map, List.mem_range] at h
  obtain ⟨i, _, rfl⟩ := h
  simp [List.length_take]

theorem createDirAll_existsPath_of_longer (fs : FS) (p q : FPath) (h : p.length < q.length) :
    (fs.createDirAll p).existsPath q = fs.existsPath q := by
  have hq : q ∉ ancestorsOf p := fun hmem => by
    have := mem_ancestorsOf_length hmem
    omega
  simp [FS.createDirAll, FS.existsPath, FS.isDir, FS.isFile, FS.getFile,
    List.mem_filter, hq]

theorem fileCmp_dir_ne (sort_field : String) (is_desc : Bool) (a b : FileInfo)
    (h : a.is_directory ≠ b.is_directory) :
    fileCmp sort_field is_desc a b = cmpBool b.is_directory a.is_directory := by
  simp [fileCmp, h]

theorem defaultCmp_dir_ne (a b : FileInfo) (h : a.is_directory ≠ b.is_directory) :
    defaultCmp a b = cmpBool b.is_directory a.is_directory := by
  simp [defaultCmp, h]

theorem sortedEntries_spec (files : List FileInfo) (params : FileQuery) :
    (sortedEntries files params).length = files.length ∧
    ∃ c, (∀ a b, a.is_directory ≠ b.is_directory →
            c a b = cmpBool b.is_directory a.is_directory) ∧
      (sortedEntries files params).Pairwise (fun a b => cmpLe c a b = true) := by
  unfold sortedEntries
  rcases params.sort_by with _ | sf
  · exact ⟨List.length_mergeSort files, defaultCmp, defaultCmp_dir_ne,
      List.sorted_mergeSort isLinCmp_defaultCmp.le_trans isLinCmp_defaultCmp.le_total files⟩
  · have h := isLinCmp_fileCmp sf (params.order.getD "asc" = "desc")
    exact ⟨List.length_mergeSort files, _, fileCmp_dir_ne sf _,
      List.sorted_mergeSort h.le_trans h.le_total files⟩

theorem format_result_ok {files : List FileInfo} {params : FileQuery} {r : FilesResponse}
    (h : format_result files params = .ok r) :
    r = { files := ((sortedEntries files params).drop (params.skip.getD 0)).take
            (params.limit.getD 25),
          total_files := files.length, skip := params.skip.getD 0,
          limit := params.limit.getD 25 } := by
  unfold format_result at h
  split at h
  · split at h
    · cases h
    · cases h
      rfl
  · cases h
    rfl

/-- Claim C4: in every successful listing response, directories precede
non-directory entries, for every sort field (or none) and direction. -/
theorem format_result_directories_first (files : List FileInfo) (params : FileQuery)
    (r : FilesResponse) (h : format_result files params = .ok r) :
    r.files.Pairwise (fun a b => a.is_directory = false → b.is_directory = false) := by
  obtain ⟨-, c, hdir, hpw⟩ := sortedEntries_spec files params
  have hsub : r.files.Sublist (sortedEntries files params) := by
    rw [format_result_ok h]
    exact (List.take_sublist _ _).trans (List.drop_sublist _ _)
  refine (hpw.sublist hsub).imp ?_
  intro a b hab ha
  by_contra hb
  have hb' : b.is_directory = true := by
    cases hbv : b.is_directory
    · exact absurd hbv hb
    · rfl
  have hfalse := cmpLe_dir_false hdir ha hb'
  rw [hab] at hfalse
  cases hfalse

theorem pairwise_cmpLe_refl (c : FileInfo → FileInfo → Ordering) (h : IsLinCmp c)
    (fi : FileInfo) (n : Nat) :
    (List.replicate n fi).Pairwise (fun a b => cmpLe c a b = true) := by
  apply List.pairwise_replicate.mpr
  right
  rcases hv : c fi fi with _ | _ | _
  · simp [cmpLe, hv]
  · simp [cmpLe, hv]
  · have := h.symm fi fi
    rw [hv] at this
    cases this

/-- Claim C4 witness at a concrete input. -/
theorem format_result_directories_first_witness :
    format_result [] {} = .ok { files := [], total_files := 0, skip := 0, limit := 25 } ∧
    ({ files := [], total_files := 0, skip := 0, limit := 25 } : FilesResponse).files.Pairwise
      (fun a b => a.is_directory = false → b.is_directory = false) := by
  have h : format_result [] ({} : FileQuery) =
      .ok { files := [], total_files := 0, skip := 0, limit := 25 } := by
    simp [format_result, sortedEntries]
  exact ⟨h, format_result_directories_first [] {} _ h⟩

/-- Claim C5: `total_files` counts the full pre-pagination sequence and the
returned page is the clamped slice `entries[skip .. skip+limit]`; a skip at
or past the end gives an empty page, not an error. -/
theorem format_result_pagination (files : List FileInfo) (params : FileQuery)
    (r : FilesResponse) (h : format_result files params = .ok r) :
    r.total_files = files.length ∧
    r.total_files = (sortedEntries files params).length ∧
    r.files = ((sortedEntries files params).drop (params.skip.getD 0)).take
      (params.limit.getD 25) ∧
    (files.length ≤ params.skip.getD 0 → r.files = []) := by
  obtain ⟨hlen, -⟩ := sortedEntries_spec files params
  rw [format_result_ok h]
  refine ⟨rfl, hlen.symm, rfl, fun hskip => ?_⟩
  show ((sortedEntries files params).drop (params.skip.getD 0)).take (params.limit.getD 25) = []
  rw [List.drop_eq_nil_of_le (by rw [hlen]; exact hskip)]
  simp

/-- Claim C5 witness: 10 entries with `skip=7, limit=5` give 3 entries and
`total_files = 10`. -/
theorem format_result_pagination_witness :
    format_result (List.replicate 10 sampleFile) { skip := some 7, limit := some 5 } =
      .ok { files := List.replicate 3 sampleFile, total_files := 10, skip := 7, limit := 5 } ∧
    (10 : Nat) = (List.replicate 10 sampleFile).length ∧
    (List.replicate 3 sampleFile).length = 3 := by
  have hsorted : sortedEntries (List.replicate 10 sampleFile)
      { skip := some 7, limit := some 5 } = List.replicate 10 sampleFile := by
    unfold sortedEntries
    exact List.mergeSort_of_sorted
      (pairwise_cmpLe_refl defaultCmp isLinCmp_defaultCmp sampleFile 10)
  have h : format_result (List.replicate 10 sampleFile) { skip := some 7, limit := some 5 } =
      .ok { files := List.replicate 3 sampleFile, total_files := 10, skip := 7, limit := 5 } := by
    unfold format_result
    rw [hsorted]
    rfl
  refine ⟨h, ?_, by decide⟩
  exact (format_result_pagination (List.replicate 10 sampleFile)
    { skip := some 7, limit := some 5 } _ h).1

/-- Claim C10: an omitted `skip` defaults to 0 and an omitted `limit` to 25;
any `order` other than exactly `"desc"` behaves as ascending with no error;
only an unrecognized `sort_by` is rejected. -/
theorem format_result_defaults_and_order (files : List FileInfo) (params : FileQuery) :
    (params.skip = none → params.limit = none →
      ∀ r, format_result files params = .ok r → r.skip = 0 ∧ r.limit = 25) ∧
    (∀ o, o ≠ some "desc" →
      format_result files { params with order := o } =
        format_result files { params with order := some "asc" }) ∧
    (∀ sf, params.sort_by = some sf → valid_fields.contains sf = false →
      format_result files params = .error (.badRequest ("Invalid sort field: " ++ sf))) ∧
    ((params.sort_by = none ∨
        ∃ sf, params.sort_by = some sf ∧ valid_fields.contains sf = true) →
      ∃ r, format_result files params = .ok r) := by
  refine ⟨?_, ?_, ?_, ?_⟩
  · intro hs hl r hr
    rw [format_result_ok hr]
    simp [hs, hl]
  · intro o ho
    have hdesc : (({ params with order := o } : FileQuery).order.getD "asc" = "desc") = False := by
      rcases o with _ | s
      · simp
      · simp only [Option.getD]
        refine eq_false ?_
        intro hc
        exact ho (by rw [hc])
    have hasc : (({ params with order := some "asc" } : FileQuery).order.getD "asc" = "desc") =
        False := by
      simp
    unfold format_result sortedEntries
    simp only [hdesc, hasc]
  · intro sf hsf hv
    unfold format_result
    rw [hsf]
    have hmem : sf ∉ valid_fields := by simpa using hv
    simp [hmem]
  · rintro (hsb | ⟨sf, hsf, hv⟩)
    · exact ⟨_, by unfold format_result; rw [hsb]⟩
    · refine ⟨{ files := ((sortedEntries files params).drop (params.skip.getD 0)).take
                  (params.limit.getD 25),
                total_files := files.length, skip := params.skip.getD 0,
                limit := params.limit.getD 25 }, ?_⟩
      unfold format_result
      rw [hsf]
      have hmem : sf ∈ valid_fields := by simpa using hv
      simp [hmem]

/-- Claim C10 witness at concrete inputs. -/
theorem format_result_defaults_and_order_witness :
    (format_result [] ({} : FileQuery) = .ok { files := [], total_files := 0, skip := 0, limit := 25 } →
      ({ files := [], total_files := 0, skip := 0, limit := 25 } : FilesResponse).skip = 0 ∧
      ({ files := [], total_files := 0, skip := 0, limit := 25 } : FilesResponse).limit = 25) ∧
    format_result [] { order := some "weird" } = format_result [] { order := some "asc" } ∧
    format_result [] { sort_by := some "bogus" } =
      .error (.badRequest ("Invalid sort field: " ++ "bogus")) := by
  refine ⟨?_, ?_, ?_⟩
  · exact (format_result_defaults_and_order [] {}).1 rfl rfl
      { files := [], total_files := 0, skip := 0, limit := 25 }
  · exact (format_result_defaults_and_order [] {}).2.1 (some "weird") (by decide)
  · exact (format_result_defaults_and_order [] { sort_by := some "bogus" }).2.2.1 "bogus" rfl
      (by decide)

/-- Claim C1: the traversal guard of `serve_file` compares the raw joined
path componentwise, so it passes for every input (first conjunct), and a
`..` path whose OS resolution escapes the root is then served: with root
`/data` and request path `../secret.txt`, the existing file `/secret.txt`
— outside the root — is streamed instead of any error. -/
theorem serve_file_serves_escaped_path :
    (∀ root rel : FPath, root.isPrefixOf (root ++ rel) = true) ∧
    serve_file ⟨[[], ["data"]], [(["secret.txt"], [42])]⟩ ["data"] ["..", "secret.txt"] =
      .ok ["secret.txt"] ∧
    (["data"] : FPath).isPrefixOf ["secret.txt"] = false :=
  ⟨isPrefixOf_append_self, by decide, by decide⟩

/-- Claim C2: `upload_file` creates a missing upload directory *before* its
containment check: with root `/data` and location `../evil` (nonexistent),
the request is rejected, yet the directory `/evil` — outside the root —
now exists on the returned filesystem. -/
theorem upload_file_creates_dir_outside_root :
    ((upload_file (fun _ => "h") ⟨[[], ["data"]], []⟩ ["data"] ["..", "evil"] "alice"
        "f.bin" [1, 2] none).1.isDir ["evil"] = true) ∧
    ((upload_file (fun _ => "h") ⟨[[], ["data"]], []⟩ ["data"] ["..", "evil"] "alice"
        "f.bin" [1, 2] none).2 =
      .error (.badRequest "Invalid upload path: outside root directory")) ∧
    ((["data"] : FPath).isPrefixOf ["evil"] = false) := by
  refine ⟨by decide, by decide, by decide⟩

/-- Claim C3: when the destination file exists and the supplied client hash
equals the digest of the existing on-disk bytes, `upload_file` returns
`skipped = true` with the existing hash and leaves the filesystem — hence
the on-disk bytes and their hash — unchanged. -/
theorem upload_file_dedup_skip
    (sha512fn : List Nat → String) (fs : FS) (root location : FPath)
    (user filename : String) (contents existing : List Nat)
    (hloc : location ≠ []) (huser : user ≠ "")
    (hdir : fs.existsPath (resolveDots (root ++ location)) = true)
    (hroot : fs.existsPath (resolveDots root) = true)
    (hpre : (resolveDots root).isPrefixOf (resolveDots (root ++ location)) = true)
    (hfile : fs.getFile (resolveDots (root ++ location) ++ [filename]) = some existing) :
    upload_file sha512fn fs root location user filename contents (some (sha512fn existing)) =
      (fs, .ok { message := "File already exists with identical content, upload skipped"
                 filename := filename
                 location := stripRoot (resolveDots root)
                   (resolveDots (root ++ location) ++ [filename])
                 uploaded_by := user
                 sha512 := some (sha512fn existing)
                 skipped := true }) := by
  have hexfile : fs.existsPath (resolveDots (root ++ location) ++ [filename]) = true := by
    simp [FS.existsPath, FS.isFile, hfile]
  unfold upload_file
  rw [if_neg (by simp [hloc, huser])]
  simp only [hdir, if_true, FS.canonicalize, hroot, if_pos, hpre, hexfile, hfile]
  simp [hdir, hpre, hexfile, hfile]

/-- Claim C3 witness at a concrete input. -/
theorem upload_file_dedup_skip_witness :
    upload_file (fun _ => "hash7")
      ⟨[[], ["data"], ["data", "sub"]], [(["data", "sub", "f.bin"], [7])]⟩
      ["data"] ["sub"] "u" "f.bin" [9] (some "hash7") =
      (⟨[[], ["data"], ["data", "sub"]], [(["data", "sub", "f.bin"], [7])]⟩,
        .ok { message := "File already exists with identical content, upload skipped",
              filename := "f.bin", location := ["sub", "f.bin"], uploaded_by := "u",
              sha512 := some "hash7", skipped := true }) :=
  upload_file_dedup_skip (fun _ => "hash7")
    ⟨[[], ["data"], ["data", "sub"]], [(["data", "sub", "f.bin"], [7])]⟩
    ["data"] ["sub"] "u" "f.bin" [9] [7]
    (by decide) (by decide) (by decide) (by decide) (by decide) (by decide)

/-- Evaluation of `get_thumbnail` once its preconditions hold: the result
depends only on the cache probe and the external tool's success, and a
process is spawned exactly on a cache miss. -/
theorem get_thumbnail_result_valid (digest : FPath → String) (ffmpeg_ok : Bool)
    (jpeg : List Nat) (fs : FS) (cache_dir path : FPath)
    (h1 : fs.existsPath path = true) (h2 : fs.isDir path = false)
    (h3 : strStartsWith (mimeFromPath path) "video/" = true) :
    (get_thumbnail digest ffmpeg_ok jpeg fs cache_dir path).result =
      (if fs.existsPath (cache_dir ++ [digest path, "thumbnail.jpg"]) then
        .ok (cache_dir ++ [digest path, "thumbnail.jpg"])
       else if ffmpeg_ok then .ok (cache_dir ++ [digest path, "thumbnail.jpg"])
       else .error (.internalError "Failed to generate thumbnail with FFmpeg")) ∧
    (get_thumbnail digest ffmpeg_ok jpeg fs cache_dir path).spawned =
      !(fs.existsPath (cache_dir ++ [digest path, "thumbnail.jpg"])) := by
  have hcreate := createDirAll_existsPath_of_longer fs (cache_dir ++ [digest path])
    (cache_dir ++ [digest path, "thumbnail.jpg"]) (by simp)
  unfold get_thumbnail
  by_cases hd : fs.existsPath (cache_dir ++ [digest path]) <;>
    by_cases hc : fs.existsPath (cache_dir ++ [digest path, "thumbnail.jpg"]) <;>
      by_cases hf : ffmpeg_ok <;>
        simp [h1, h2, h3, hd, hc, hf, hcreate]

/-- Claim C6: `get_thumbnail` returns `InvalidInput` exactly when the source
does not exist, is a directory, or its extension-guessed MIME type does not
begin with `video/`; every success returns the cache path
`<cache_dir>/<digest>/thumbnail.jpg`; and when that cache file already
exists the call returns it with no process spawned. -/
theorem get_thumbnail_contract (digest : FPath → String) (ffmpeg_ok : Bool)
    (jpeg : List Nat) (fs : FS) (cache_dir path : FPath) :
    ((get_thumbnail digest ffmpeg_ok jpeg fs cache_dir path).result =
        .error .invalidInput ↔
      fs.existsPath path = false ∨ fs.isDir path = true ∨
        strStartsWith (mimeFromPath path) "video/" = false) ∧
    (∀ q, (get_thumbnail digest ffmpeg_ok jpeg fs cache_dir path).result = .ok q →
      q = cache_dir ++ [digest path, "thumbnail.jpg"]) ∧
    (fs.existsPath path = true → fs.isDir path = false →
      strStartsWith (mimeFromPath path) "video/" = true →
      fs.existsPath (cache_dir ++ [digest path, "thumbnail.jpg"]) = true →
      (get_thumbnail digest ffmpeg_ok jpeg fs cache_dir path).result =
        .ok (cache_dir ++ [digest path, "thumbnail.jpg"]) ∧
      (get_thumbnail digest ffmpeg_ok jpeg fs cache_dir path).spawned = false) := by
  by_cases h1 : fs.existsPath path
  · by_cases h2 : fs.isDir path
    · refine ⟨by simp [get_thumbnail, h1, h2], ?_, ?_⟩
      · intro q hq
        simp [get_thumbnail, h1, h2] at hq
      · intro _ h2' _ _
        rw [h2'] at h2
        cases h2
    · have h2' : fs.isDir path = false := by simpa using h2
      by_cases h3 : strStartsWith (mimeFromPath path) "video/"
      · obtain ⟨hres, hsp⟩ :=
          get_thumbnail_result_valid digest ffmpeg_ok jpeg fs cache_dir path h1 h2' h3
        refine ⟨?_, ?_, ?_⟩
        · rw [hres]
          constructor
          · intro hq
            split at hq
            · cases hq
            · split at hq
              · cases hq
              · simp at hq
          · rintro (hc | hc | hc)
            · rw [h1] at hc; cases hc
            · rw [h2'] at hc; cases hc
            · rw [h3] at hc; cases hc
        · intro q hq
          rw [hres] at hq
          split at hq
          · cases hq; rfl
          · split at hq
            · cases hq; rfl
            · cases hq
        · intro _ _ _ h4
          rw [hres, hsp, h4]
          simp
      · have h3' : strStartsWith (mimeFromPath path) "video/" = false := by simpa using h3
        refine ⟨by simp [get_thumbnail, h1, h2', h3'], ?_, ?_⟩
        · intro q hq
          simp [get_thumbnail, h1, h2', h3'] at hq
        · intro _ _ h3'' _
          rw [h3''] at h3'
          cases h3'
  · have h1' : fs.existsPath path = false := by simpa using h1
    refine ⟨by simp [get_thumbnail, h1'], ?_, ?_⟩
    · intro q hq
      simp [get_thumbnail, h1'] at hq
    · intro h1'' _ _ _
      rw [h1''] at h1'
      cases h1'

/-- Claim C6 witness: a cached thumbnail for an existing video file is
returned as-is, with no process spawned, at the modelled cache path. -/
theorem get_thumbnail_contract_witness :
    (get_thumbnail (fun _ => "k") true [9]
        ⟨[[], ["c"], ["c", "k"]], [(["v.mp4"], [1]), (["c", "k", "thumbnail.jpg"], [2])]⟩
        ["c"] ["v.mp4"]).result = .ok ["c", "k", "thumbnail.jpg"] ∧
    (get_thumbnail (fun _ => "k") true [9]
        ⟨[[], ["c"], ["c", "k"]], [(["v.mp4"], [1]), (["c", "k", "thumbnail.jpg"], [2])]⟩
        ["c"] ["v.mp4"]).spawned = false :=
  (get_thumbnail_contract (fun _ => "k") true [9]
    ⟨[[], ["c"], ["c", "k"]], [(["v.mp4"], [1]), (["c", "k", "thumbnail.jpg"], [2])]⟩
    ["c"] ["v.mp4"]).2.2 (by decide) (by decide) (by decide) (by decide)

/-- Claim C7: `FileInfo::from_path` derives `file_type` from the extension
guess unconditionally, so a listed *directory* (here `/data/docs`) reports
`application/octet-stream`, not the empty string the spec (and the
struct's own comment) prescribe for directories. -/
theorem from_path_directory_mime_nonempty :
    ((FileInfo.from_path ⟨[[], ["data"], ["data", "docs"]], []⟩ ["data", "docs"]
        ["data"]).map (fun fi => (fi.is_directory, fi.file_type))) =
      some (true, "application/octet-stream") ∧
    ("application/octet-stream" ≠ "") := by
  refine ⟨by decide, by decide⟩

/-- Claim C8: a widget-protocol `create` whose target folder already exists
returns a response whose `error` carries `file_exists = [name]` and no
result entries, while the transport-level `file_operations` call itself
still succeeds (`Ok`). -/
theorem create_existing_folder_logical_error
    (fs : FS) (root : FPath) (request : FileManagerDirectoryContent) (name : String)
    (haction : request.action = some "create")
    (hname : request.name = some name) (hne : name ≠ "")
    (hsafe : is_safe_path fs (root ++ request.path.getD [] ++ [name]) root = true)
    (hex : fs.existsPath (resolveDots (root ++ request.path.getD [] ++ [name])) = true) :
    file_operations fs root request =
      .ok (fs, { cwd := none, files := none,
                 error := some { code := some "400",
                                 message := some "Folder already exists",
                                 file_exists := some [name] },
                 details := none }) := by
  unfold file_operations process_file_manager_request handle_create
  rw [haction, hname]
  simp only [List.append_assoc] at hsafe hex
  simp [hne, hsafe, hex]

/-- Claim C8 witness at a concrete input. -/
theorem create_existing_folder_logical_error_witness :
    file_operations ⟨[[], ["data"], ["data", "x"]], []⟩ ["data"]
      { action := some "create", path := some [], name := some "x" } =
      .ok (⟨[[], ["data"], ["data", "x"]], []⟩,
        { cwd := none, files := none,
          error := some { code := some "400", message := some "Folder already exists",
                          file_exists := some ["x"] },
          details := none }) :=
  create_existing_folder_logical_error ⟨[[], ["data"], ["data", "x"]], []⟩ ["data"]
    { action := some "create", path := some [], name := some "x" } "x"
    rfl rfl (by decide) (by decide) (by decide)

/-- Claim C9 counterexample: `create_folder` with an empty folder name
returns `NotFound`, not the `BadRequest` the claim (via the spec's error
taxonomy) asserts. -/
theorem create_folder_empty_name_not_bad_request :
    (create_folder ⟨[[], ["data"]], []⟩ ["data"] [] "").2 =
      .error (.notFound "Folder name should not be empty") ∧
    resultIsBadRequest (create_folder ⟨[[], ["data"]], []⟩ ["data"] [] "").2 = false := by
  refine ⟨by decide, by decide⟩

/-- Claim C9 as amended: an empty search query and an empty upload
`location`/`user` fail with `BadRequest`, while an empty folder name on
folder creation fails with `NotFound` (message "Folder name should not be
empty"); the filesystem is untouched in each case. -/
theorem empty_required_field_errors :
    (∀ (fs : FS) (root path : FPath) (params : FileQuery),
      params.query.getD "" = "" →
      search fs root path params = .error (.badRequest "Missing search query")) ∧
    (∀ (sha512fn : List Nat → String) (fs : FS) (root location : FPath)
        (user filename : String) (contents : List Nat) (client_sha512 : Option String),
      location = [] ∨ user = "" →
      upload_file sha512fn fs root location user filename contents client_sha512 =
        (fs, .error (.badRequest "Missing required fields: location or user"))) ∧
    (∀ (fs : FS) (root path : FPath),
      create_folder fs root path "" =
        (fs, .error (.notFound "Folder name should not be empty"))) := by
  refine ⟨?_, ?_, ?_⟩
  · intro fs root path params hq
    unfold search
    rw [hq]
    rfl
  · intro sha512fn fs root location user filename contents client_sha512 h
    unfold upload_file
    rcases h with h | h <;> simp [h]
  · intro fs root path
    rfl

/-- Claim C9 witness at concrete inputs. -/
theorem empty_required_field_errors_witness :
    search ⟨[[], ["data"]], []⟩ ["data"] [] { query := some "" } =
      .error (.badRequest "Missing search query") ∧
    upload_file (fun _ => "") ⟨[[], ["data"]], []⟩ ["data"] [] "u" "f" [] none =
      (⟨[[], ["data"]], []⟩, .error (.badRequest "Missing required fields: location or user")) ∧
    create_folder ⟨[[], ["data"]], []⟩ ["data"] [] "" =
      (⟨[[], ["data"]], []⟩, .error (.notFound "Folder name should not be empty")) :=
  ⟨empty_required_field_errors.1 ⟨[[], ["data"]], []⟩ ["data"] [] { query := some "" } rfl,
   empty_required_field_errors.2.1 (fun _ => "") ⟨[[], ["data"]], []⟩ ["data"] [] "u" "f" []
     none (Or.inl rfl),
   empty_required_field_errors.2.2 ⟨[[], ["data"]], []⟩ ["data"] []⟩
